import Mathlib

/-!
Verification of `rssant_harbor/actors/rss.py` (rssant harbor actors).

The actor handlers are embedded as pure state-transition functions over an
explicit relational state (`DBState`): each handler takes the state and the
message payload and returns `none` (the transaction rolled back, e.g. a
referenced primary key is absent) or `some` of the committed state paired
with the downstream messages emitted after the commit.

Collaborator code that is part of the repository but not present under
`src/` (the ORM model methods of `rssant_api.models`, the
`StoryImageProcessor` of `rssant_feedlib.processor`, `encode_image_url`,
and the numeric values of `FeedResponseStatus`) is modelled from the spec;
each such definition carries a doc comment starting `Modelled from the
spec:`.

Datetimes are modelled as natural numbers (seconds); string blobs keep
their Python `str` type as `String`, except story content, which is
modelled as a list of markup parts so that the image-reference rewriter
(spec section 4.2) has positional structure to work on.
-/

namespace Rssant

/-- Feed / FeedCreation lifecycle status enum (`FeedStatus` in
`rssant_api.models`): PENDING, UPDATING, READY, ERROR. -/
inductive FeedStatus where
  | pending
  | updating
  | ready
  | error
deriving DecidableEq

/-- A piece of story content: plain markup text or an embedded image
reference. Content is modelled as a list of such parts so that image
references carry positional information (spec section 4.2). -/
inductive ContentPart where
  | text (s : String)
  | img (url : String)
deriving DecidableEq

/-- Incoming story payload, one element of `storys` (the `StorySchema`
validr schema of the source). -/
structure StorySchema where
  unique_id : String
  title : String
  content_hash_base64 : String
  author : Option String
  link : Option String
  dt_published : Option Nat
  dt_updated : Option Nat
  summary : Option String
  content : Option (List ContentPart)
deriving DecidableEq

/-- Incoming feed payload (the `FeedSchema` validr schema of the source). -/
structure FeedSchema where
  url : String
  title : String
  content_hash_base64 : String
  link : Option String
  author : Option String
  icon : Option String
  description : Option String
  version : Option String
  dt_updated : Option Nat
  encoding : Option String
  etag : Option String
  last_modified : Option String
  storys : List StorySchema
deriving DecidableEq

/-- Persisted Feed row. -/
structure Feed where
  id : Nat
  url : String
  title : String
  content_hash_base64 : String
  link : Option String
  author : Option String
  icon : Option String
  description : Option String
  version : Option String
  dt_updated : Nat
  encoding : Option String
  etag : Option String
  last_modified : Option String
  status : FeedStatus
deriving DecidableEq

/-- Persisted FeedCreation row: a one-shot subscription request. -/
structure FeedCreation where
  id : Nat
  user_id : Nat
  url : String
  status : FeedStatus
  message : String
  dt_updated : Nat
  is_from_bookmark : Bool
deriving DecidableEq

/-- Persisted UserFeed row: link between a requester and a Feed. -/
structure UserFeed where
  user_id : Nat
  feed_id : Nat
  is_from_bookmark : Bool
deriving DecidableEq

/-- Persisted FeedUrlMap row: alias from a source URL to a target URL. -/
structure FeedUrlMap where
  source : String
  target : String
deriving DecidableEq

/-- Modelled from the spec: `FeedUrlMap.NOT_FOUND`, the sentinel target URL
recorded for a requested URL that resolved to no feed (the constant lives in
`rssant_api.models`, which is not under `src/`). Its concrete value is
irrelevant to the claims; it is a fixed sentinel string. -/
def FeedUrlMap.NOT_FOUND : String := "#"

/-- Persisted Story row. -/
structure Story where
  id : Nat
  feed_id : Nat
  unique_id : String
  title : String
  content_hash_base64 : String
  author : Option String
  link : Option String
  dt_published : Option Nat
  dt_updated : Option Nat
  summary : Option String
  content : List ContentPart
deriving DecidableEq

/-- Downstream messages emitted by the handlers via `ctx.send`. -/
inductive Msg where
  | update_feed (feed_id : Nat) (feed : FeedSchema)
  | fetch_story (url : Option String) (story_id : String)
deriving DecidableEq

/-- The whole relational state the handlers act on, plus fresh-id counters
for rows created by the handlers. -/
structure DBState where
  feedCreations : List FeedCreation
  feeds : List Feed
  userFeeds : List UserFeed
  feedUrlMaps : List FeedUrlMap
  storys : List Story
  nextFeedId : Nat
  nextStoryId : Nat
deriving DecidableEq

/-- Replace the first element satisfying `p` by its image under `f`,
leaving everything else in place (the row-update primitive: a Django
`instance.save()` overwrites exactly the row fetched by its key). -/
def replaceFirst {α : Type} (l : List α) (p : α → Bool) (f : α → α) : List α :=
  match l with
  | [] => []
  | x :: xs => if p x then f x :: xs else x :: replaceFirst xs p f

/-- Modelled from the spec: `FeedCreation.get_by_pk` (ORM point lookup by
primary key; `rssant_api.models` is not under `src/`). -/
def FeedCreation.get_by_pk (l : List FeedCreation) (pk : Nat) : Option FeedCreation :=
  l.find? (fun fc => fc.id == pk)

/-- Modelled from the spec: `Feed.get_first_by_url` (resolve the canonical
Feed by URL; `rssant_api.models` is not under `src/`). -/
def Feed.get_first_by_url (l : List Feed) (url : String) : Option Feed :=
  l.find? (fun f => f.url == url)

/-- Modelled from the spec: `Feed.get_by_pk` (ORM point lookup by primary
key). -/
def Feed.get_by_pk (l : List Feed) (pk : Nat) : Option Feed :=
  l.find? (fun f => f.id == pk)

/-- Modelled from the spec: `Story.objects.get(pk=...)` (ORM point lookup
by primary key). -/
def Story.get_by_pk (l : List Story) (pk : Nat) : Option Story :=
  l.find? (fun s => s.id == pk)

/-- `UserFeed.objects.filter(user_id=..., feed_id=...).first()`. -/
def UserFeed.first_by_pair (l : List UserFeed) (user_id feed_id : Nat) : Option UserFeed :=
  l.find? (fun uf => uf.user_id == user_id && uf.feed_id == feed_id)

/-- `harbor_rss.update_feed_creation_status` (source lines 62-72): fetches
the FeedCreation by primary key and sets its status to UPDATING,
unconditionally ignoring the `status` argument. -/
def do_update_feed_creation_status (db : DBState) (feed_creation_id : Nat)
    (status : String) : Option (DBState × List Msg) :=
  match FeedCreation.get_by_pk db.feedCreations feed_creation_id with
  | none => none
  | some _ =>
    let _ := status
    some ({ db with
      feedCreations := replaceFirst db.feedCreations (fun fc => fc.id == feed_creation_id)
        (fun fc => { fc with status := FeedStatus.updating }) }, [])

/-- A fresh Feed row as created on the success path of
`do_save_feed_creation_result` (source line 98):
`Feed(url=url, status=FeedStatus.READY, dt_updated=timezone.now())`,
every other column at its default. -/
def Feed.fresh (id : Nat) (url : String) (now : Nat) : Feed :=
  { id := id, url := url, title := "", content_hash_base64 := "",
    link := none, author := none, icon := none, description := none,
    version := none, dt_updated := now, encoding := none, etag := none,
    last_modified := none, status := FeedStatus.ready }

/-- Second half of the success path of `do_save_feed_creation_result`
(source lines 100-118), once the canonical Feed is resolved or created:
create or reuse the UserFeed link, record the FeedUrlMap entries, and emit
the `harbor_rss.update_feed` message. -/
def saveCreationTail (db : DBState) (fc0 : FeedCreation) (feed : Feed)
    (feed_dict : FeedSchema) : DBState × List Msg :=
  let newLink : UserFeed :=
    { user_id := fc0.user_id, feed_id := feed.id,
      is_from_bookmark := fc0.is_from_bookmark }
  let db2 :=
    match UserFeed.first_by_pair db.userFeeds fc0.user_id feed.id with
    | some _ => db
    | none => { db with userFeeds := db.userFeeds ++ [newLink] }
  let entries : List FeedUrlMap :=
    [{ source := fc0.url, target := feed.url }] ++
      (if feed.url ≠ fc0.url then [{ source := feed.url, target := feed.url }] else [])
  let db3 := { db2 with feedUrlMaps := db2.feedUrlMaps ++ entries }
  (db3, [Msg.update_feed feed.id feed_dict])

/-- `harbor_rss.save_feed_creation_result` (source lines 75-118): terminal
transition of a FeedCreation. With no feed payload: status ERROR, joined
messages stored, requested URL mapped to NOT_FOUND, nothing emitted. With
a feed payload: status READY, Feed resolved or created by the payload URL,
UserFeed created or reused, FeedUrlMap entries recorded, one
`update_feed` message emitted after the transaction. -/
def do_save_feed_creation_result (db : DBState) (now : Nat) (feed_creation_id : Nat)
    (messages : List String) (feed_dict : Option FeedSchema) : Option (DBState × List Msg) :=
  match FeedCreation.get_by_pk db.feedCreations feed_creation_id with
  | none => none
  | some fc0 =>
    match feed_dict with
    | none =>
      some ({ db with
        feedCreations := replaceFirst db.feedCreations (fun fc => fc.id == feed_creation_id)
          (fun fc => { fc with message := String.intercalate "\n\n" messages,
                               dt_updated := now, status := FeedStatus.error }),
        feedUrlMaps := db.feedUrlMaps ++
          [{ source := fc0.url, target := FeedUrlMap.NOT_FOUND }] }, [])
    | some payload =>
      let db1 := { db with
        feedCreations := replaceFirst db.feedCreations (fun fc => fc.id == feed_creation_id)
          (fun fc => { fc with message := String.intercalate "\n\n" messages,
                               dt_updated := now, status := FeedStatus.ready }) }
      match Feed.get_first_by_url db1.feeds payload.url with
      | some feed => some (saveCreationTail db1 fc0 feed payload)
      | none =>
        let feed := Feed.fresh db1.nextFeedId payload.url now
        let db2 := { db1 with feeds := db1.feeds ++ [feed], nextFeedId := db1.nextFeedId + 1 }
        some (saveCreationTail db2 fc0 feed payload)

/-- The attribute-merge loop of `do_update_feed` (source lines 132-134),
per required string field: `setattr` happens exactly when the payload value
is neither the empty string nor None. -/
def mergeStr (old v : String) : String :=
  if v = "" then old else v

/-- The attribute-merge loop for an optional string field. -/
def mergeOptStr (old v : Option String) : Option String :=
  match v with
  | none => old
  | some x => if x = "" then old else some x

/-- The attribute-merge loop for the optional datetime field (a datetime is
never the empty string, so only absence keeps the old value). -/
def mergeOptNat (old : Nat) (v : Option Nat) : Nat :=
  match v with
  | none => old
  | some t => t

/-- The `for k, v in feed_dict.items(): if v != '' and v is not None:
setattr(feed, k, v)` loop of `do_update_feed`, written field by field
(`storys` was popped off the dict before the loop; `id` and `status` are
not payload keys and stay untouched). -/
def updateFeedAttrs (f : Feed) (p : FeedSchema) : Feed :=
  { f with
    url := mergeStr f.url p.url,
    title := mergeStr f.title p.title,
    content_hash_base64 := mergeStr f.content_hash_base64 p.content_hash_base64,
    link := mergeOptStr f.link p.link,
    author := mergeOptStr f.author p.author,
    icon := mergeOptStr f.icon p.icon,
    description := mergeOptStr f.description p.description,
    version := mergeOptStr f.version p.version,
    dt_updated := mergeOptNat f.dt_updated p.dt_updated,
    encoding := mergeOptStr f.encoding p.encoding,
    etag := mergeOptStr f.etag p.etag,
    last_modified := mergeOptStr f.last_modified p.last_modified }

/-- The story table together with the fresh-id counter, the state
`Story.bulk_save_by_feed` acts on. -/
structure StoryDb where
  storys : List Story
  nextId : Nat
deriving DecidableEq

/-- Does this persisted story carry the (feed, natural key) pair of the
incoming story? -/
def matchPred (fid : Nat) (uid : String) (s : Story) : Bool :=
  s.feed_id == fid && s.unique_id == uid

/-- Does this persisted story carry the natural key under a different feed
(the reallocation lookup, spec section 4.1 step 2)? -/
def otherPred (fid : Nat) (uid : String) (s : Story) : Bool :=
  s.unique_id == uid && !(s.feed_id == fid)

/-- First story of the feed with the given natural key. -/
def findStory (l : List Story) (fid : Nat) (uid : String) : Option Story :=
  l.find? (matchPred fid uid)

/-- First story with the given natural key under a different feed. -/
def findStoryOther (l : List Story) (fid : Nat) (uid : String) : Option Story :=
  l.find? (otherPred fid uid)

/-- Modelled from the spec: the change-update of section 4.1 step 3 —
"update title/author/link/timestamps/hash" from the incoming story.
(`Story.bulk_save_by_feed` lives in `rssant_api.models`, not under
`src/`.) -/
def applyIncoming (s : Story) (v : StorySchema) : Story :=
  { s with
    title := v.title,
    author := v.author,
    link := v.link,
    dt_published := v.dt_published,
    dt_updated := v.dt_updated,
    content_hash_base64 := v.content_hash_base64 }

/-- Modelled from the spec: a freshly inserted Story row built from the
incoming payload (section 4.1 step 2, "otherwise insert a new Story"). -/
def Story.ofSchema (id fid : Nat) (v : StorySchema) : Story :=
  { id := id, feed_id := fid, unique_id := v.unique_id, title := v.title,
    content_hash_base64 := v.content_hash_base64, author := v.author,
    link := v.link, dt_published := v.dt_published, dt_updated := v.dt_updated,
    summary := v.summary, content := v.content.getD [] }

/-- Result of one reconciliation step: the new story state, the story to
report as modified (if any), and whether a reallocation happened. -/
structure StepResult where
  sdb : StoryDb
  modified : Option Story
  realloc : Bool
deriving DecidableEq

/-- Modelled from the spec: one step of `Story.bulk_save_by_feed`
(section 4.1): found under this feed → skip on equal hash, update and mark
modified on a changed hash; found under another feed → reassign ownership
(a reallocation), updating and marking modified only when the hash also
changed; found nowhere → insert a new Story, which is modified. -/
def bulkStep (fid : Nat) (sdb : StoryDb) (v : StorySchema) : StepResult :=
  match findStory sdb.storys fid v.unique_id with
  | some s =>
    if s.content_hash_base64 = v.content_hash_base64 then
      { sdb := sdb, modified := none, realloc := false }
    else
      let storys2 := replaceFirst sdb.storys (matchPred fid v.unique_id)
        (fun t => applyIncoming t v)
      { sdb := { sdb with storys := storys2 },
        modified := some (applyIncoming s v), realloc := false }
  | none =>
    match findStoryOther sdb.storys fid v.unique_id with
    | some s =>
      if s.content_hash_base64 = v.content_hash_base64 then
        let storys2 := replaceFirst sdb.storys (otherPred fid v.unique_id)
          (fun t => { t with feed_id := fid })
        { sdb := { sdb with storys := storys2 }, modified := none, realloc := true }
      else
        let storys2 := replaceFirst sdb.storys (otherPred fid v.unique_id)
          (fun t => applyIncoming { t with feed_id := fid } v)
        { sdb := { sdb with storys := storys2 },
          modified := some (applyIncoming { s with feed_id := fid } v), realloc := true }
    | none =>
      { sdb := { storys := sdb.storys ++ [Story.ofSchema sdb.nextId fid v],
                 nextId := sdb.nextId + 1 },
        modified := some (Story.ofSchema sdb.nextId fid v), realloc := false }

/-- Result of `Story.bulk_save_by_feed`: the new story state, the modified
stories, and the reallocation count. -/
structure BulkSaveResult where
  sdb : StoryDb
  modified : List Story
  num_reallocate : Nat
deriving DecidableEq

/-- Modelled from the spec: `Story.bulk_save_by_feed(feed_id, storys)`
(section 4.1 `reconcile`): fold the reconciliation step over the incoming
batch, collecting modified stories and the reallocation count. -/
def Story.bulk_save_by_feed (fid : Nat) (vs : List StorySchema) (sdb : StoryDb) :
    BulkSaveResult :=
  match vs with
  | [] => { sdb := sdb, modified := [], num_reallocate := 0 }
  | v :: rest =>
    let r1 := bulkStep fid sdb v
    let r2 := Story.bulk_save_by_feed fid rest r1.sdb
    { sdb := r2.sdb,
      modified := (match r1.modified with
        | some s => s :: r2.modified
        | none => r2.modified),
      num_reallocate := (if r1.realloc then 1 else 0) + r2.num_reallocate }

/-- `harbor_rss.update_feed` (source lines 121-145): pop the story batch,
merge non-blank payload attributes onto the Feed, reconcile the batch, and
after the transaction emit one `worker_rss.fetch_story` message per
modified story, keyed by the story link and id. -/
def do_update_feed (db : DBState) (feed_id : Nat) (feed_dict : FeedSchema) :
    Option (DBState × List Msg) :=
  match Feed.get_by_pk db.feeds feed_id with
  | none => none
  | some feed =>
    let r := Story.bulk_save_by_feed feed.id feed_dict.storys
      { storys := db.storys, nextId := db.nextStoryId }
    some ({ db with
        feeds := replaceFirst db.feeds (fun f => f.id == feed_id)
          (fun f => updateFeedAttrs f feed_dict),
        storys := r.sdb.storys,
        nextStoryId := r.sdb.nextId },
      r.modified.map (fun s => Msg.fetch_story s.link (Nat.repr s.id)))

/-- `harbor_rss.update_story` (source lines 148-162): direct last-write-wins
overwrite of one story's link, content and summary. -/
def do_update_story (db : DBState) (story_id : Nat) (content : List ContentPart)
    (summary : String) (url : String) : Option (DBState × List Msg) :=
  match Story.get_by_pk db.storys story_id with
  | none => none
  | some _ =>
    some ({ db with
      storys := replaceFirst db.storys (fun s => s.id == story_id)
        (fun s => { s with link := some url, content := content,
                           summary := some summary }) }, [])

/-- Modelled from the spec: `FeedResponseStatus.REFERER_DENY.value`, a
feed-fetch-specific referer-rejection outcome (`rssant_feedlib.reader` is
not under `src/`; the enum value is a fixed negative sentinel outside the
HTTP status range). -/
def REFERER_DENY_STATUS_VALUE : Int := -211

/-- Modelled from the spec: `FeedResponseStatus.REFERER_NOT_ALLOWED.value`,
the second feed-fetch-specific referer-rejection outcome. -/
def REFERER_NOT_ALLOWED_STATUS_VALUE : Int := -212

/-- `IMAGE_REFERER_DENY_STATUS` (source lines 165-169): the referer-deny
set — plain HTTP client/referer-denied codes 400, 401, 403, 404 plus the
two feed-fetch-specific referer-rejection outcomes. -/
def IMAGE_REFERER_DENY_STATUS : List Int :=
  [400, 401, 403, 404, REFERER_DENY_STATUS_VALUE, REFERER_NOT_ALLOWED_STATUS_VALUE]

/-- Modelled from the spec: `encode_image_url(url, referer)`
(`rssant_common.image_url` is not under `src/`): an opaque deterministic
encoding of the (image URL, story URL) pair into a token. -/
def encode_image_url (url referer : String) : String :=
  url ++ "+" ++ referer

/-- One element of the `images` argument of `do_update_story_images`:
an image URL with the status of the last fetch attempt against it. -/
structure ImageItem where
  url : String
  status : Int
deriving DecidableEq

/-- Lookup in a Python-dict-like association list. -/
def lookupAL (m : List (String × String)) (k : String) : Option String :=
  match m with
  | [] => none
  | p :: rest => if p.fst == k then some p.snd else lookupAL rest k

/-- Python dict assignment `m[k] = v`: overwrite the entry in place when
the key exists, append otherwise. -/
def insertAL (m : List (String × String)) (k v : String) : List (String × String) :=
  match m with
  | [] => [(k, v)]
  | p :: rest => if p.fst == k then (k, v) :: rest else p :: insertAL rest k v

/-- One iteration of the classification loop of `do_update_story_images`
(source lines 184-187): an image is entered into the replacement map
exactly when its status is in the referer-deny set, mapped to the proxied
path. -/
def imageClassifyStep (story_url : String) (acc : List (String × String))
    (img : ImageItem) : List (String × String) :=
  if img.status ∈ IMAGE_REFERER_DENY_STATUS then
    insertAL acc img.url ("/api/v1/image/" ++ encode_image_url img.url story_url)
  else acc

/-- The classification loop of `do_update_story_images` (source lines
183-187), building the `image_replaces` dict. -/
def buildImageReplaces (story_url : String) (images : List ImageItem) :
    List (String × String) :=
  images.foldl (imageClassifyStep story_url) []

/-- An image reference found by the processor: its position in the content
together with its URL (spec section 4.2 `parse`). -/
structure ImageRef where
  pos : Nat
  url : String
deriving DecidableEq

/-- Modelled from the spec: `StoryImageProcessor.parse` (section 4.2;
`rssant_feedlib.processor` is not under `src/`): scan the content blob and
return every embedded image reference with positional information. -/
def StoryImageProcessor.parse (content : List ContentPart) : List ImageRef :=
  content.enum.filterMap (fun ip =>
    match ip.snd with
    | ContentPart.img u => some { pos := ip.fst, url := u }
    | ContentPart.text _ => none)

/-- Modelled from the spec: `StoryImageProcessor.process` (section 4.2):
substitute only the references whose URL is present in the replacement
map, leaving every other part untouched. -/
def StoryImageProcessor.process (content : List ContentPart) (refs : List ImageRef)
    (replaces : List (String × String)) : List ContentPart :=
  refs.foldl
    (fun c r =>
      match lookupAL replaces r.url with
      | some nu => c.set r.pos (ContentPart.img nu)
      | none => c)
    content

/-- `harbor_rss.update_story_images` (source lines 172-196): build the
replacement map from the referer-deny classification, then re-parse the
story's current content, process it with the map, and save the story.
The second component of the result is the write log: the primary keys of
the story rows saved by the transaction. -/
def do_update_story_images (db : DBState) (story_id : Nat) (story_url : String)
    (images : List ImageItem) : Option (DBState × List Nat) :=
  let image_replaces := buildImageReplaces story_url images
  match Story.get_by_pk db.storys story_id with
  | none => none
  | some _ =>
    let rewrite := fun (s : Story) =>
      let image_indexs := StoryImageProcessor.parse s.content
      { s with content := StoryImageProcessor.process s.content image_indexs image_replaces }
    some ({ db with
      storys := replaceFirst db.storys (fun s => s.id == story_id) rewrite }, [story_id])

/-- Is this a terminal FeedCreation status (READY or ERROR)? -/
def FeedStatus.isTerminal : FeedStatus → Bool
  | FeedStatus.ready => true
  | FeedStatus.error => true
  | _ => false

/-- Modelled from the spec: `FeedCreation.delete_by_status(survival_seconds)`
(section 4.4 stale-creation cleanup; `rssant_api.models` is not under
`src/`): delete FeedCreation records whose terminal state has persisted
beyond the retention window. Returns the surviving rows and the count of
deleted ones. -/
def FeedCreation.delete_by_status (now survival : Nat) (l : List FeedCreation) :
    List FeedCreation × Nat :=
  let keep := l.filter (fun fc =>
    !(fc.status.isTerminal && decide (fc.dt_updated + survival < now)))
  (keep, l.length - keep.length)

/-- Modelled from the spec: `FeedCreation.query_ids_by_status(status,
survival_seconds)`: the ids of the records stuck in the given status
beyond the window. -/
def FeedCreation.query_ids_by_status (status : FeedStatus) (now survival : Nat)
    (l : List FeedCreation) : List Nat :=
  (l.filter (fun fc =>
    decide (fc.status = status) && decide (fc.dt_updated + survival < now))).map
    (fun fc => fc.id)

/-- Modelled from the spec: `FeedCreation.bulk_set_pending(ids)`: reset the
status of the listed records to PENDING in bulk, touching nothing else. -/
def FeedCreation.bulk_set_pending (ids : List Nat) (l : List FeedCreation) :
    List FeedCreation :=
  l.map (fun fc => if fc.id ∈ ids then { fc with status := FeedStatus.pending } else fc)

/-- `retry_feed_creations` (source lines 236-237). -/
def retry_feed_creations (feed_creation_ids : List Nat) (l : List FeedCreation) :
    List FeedCreation :=
  FeedCreation.bulk_set_pending feed_creation_ids l

/-- Result of `do_clean_feed_creation`: the new state, the emitted
messages, and the returned counter dict. -/
structure CleanResult where
  db : DBState
  msgs : List Msg
  num_deleted : Nat
  num_retry_updating : Nat
  num_retry_pending : Nat
deriving DecidableEq

/-- `harbor_rss.clean_feed_creation` (source lines 211-233): delete
terminal FeedCreations older than 2 hours, then reset to PENDING the
records stuck in UPDATING beyond 10 minutes and those stuck in PENDING
beyond 30 minutes; no message is sent. -/
def do_clean_feed_creation (db : DBState) (now : Nat) : CleanResult :=
  let d := FeedCreation.delete_by_status now (2 * 60 * 60) db.feedCreations
  let l1 := d.fst
  let ids_updating := FeedCreation.query_ids_by_status FeedStatus.updating now (10 * 60) l1
  let l2 := retry_feed_creations ids_updating l1
  let ids_pending := FeedCreation.query_ids_by_status FeedStatus.pending now (30 * 60) l2
  let l3 := retry_feed_creations ids_pending l2
  { db := { db with feedCreations := l3 },
    msgs := [],
    num_deleted := d.snd,
    num_retry_updating := ids_updating.length,
    num_retry_pending := ids_pending.length }

/-- The messages emitted by a handler invocation: none when the
transaction rolled back. -/
def emitted (r : Option (DBState × List Msg)) : List Msg :=
  match r with
  | none => []
  | some x => x.snd

/-- A sample FeedCreation row for concrete evaluations. -/
def sampleCreation : FeedCreation :=
  { id := 1, user_id := 7, url := "http://req", status := FeedStatus.pending,
    message := "", dt_updated := 0, is_from_bookmark := false }

/-- A sample state holding just `sampleCreation`. -/
def sampleDb : DBState :=
  { feedCreations := [sampleCreation], feeds := [], userFeeds := [],
    feedUrlMaps := [], storys := [], nextFeedId := 10, nextStoryId := 20 }

/-- A sample incoming story payload. -/
def sampleStorySchema : StorySchema :=
  { unique_id := "u1", title := "S1", content_hash_base64 := "c1",
    author := none, link := some "http://l", dt_published := none,
    dt_updated := none, summary := none, content := none }

/-- A sample incoming feed payload. -/
def samplePayload : FeedSchema :=
  { url := "http://a/feed.xml", title := "A", content_hash_base64 := "h1",
    link := none, author := none, icon := none, description := none,
    version := none, dt_updated := none, encoding := none, etag := none,
    last_modified := none, storys := [sampleStorySchema] }

/-- A sample persisted Feed row. -/
def sampleFeed : Feed :=
  { id := 3, url := "http://a/feed.xml", title := "Old",
    content_hash_base64 := "h0", link := none, author := none, icon := none,
    description := none, version := none, dt_updated := 0, encoding := none,
    etag := none, last_modified := none, status := FeedStatus.ready }

/-- A sample state holding just `sampleFeed`. -/
def sampleFeedDb : DBState :=
  { feedCreations := [], feeds := [sampleFeed], userFeeds := [],
    feedUrlMaps := [], storys := [], nextFeedId := 10, nextStoryId := 20 }

/-- A sample persisted Story row with one embedded image. -/
def sampleStoryRow : Story :=
  { id := 5, feed_id := 3, unique_id := "u1", title := "S1",
    content_hash_base64 := "c1", author := none, link := none,
    dt_published := none, dt_updated := none, summary := none,
    content := [ContentPart.text "hello", ContentPart.img "http://y"] }

/-- A sample state holding just `sampleStoryRow`. -/
def sampleStoryDb : DBState :=
  { feedCreations := [], feeds := [], userFeeds := [], feedUrlMaps := [],
    storys := [sampleStoryRow], nextFeedId := 10, nextStoryId := 20 }

/-- A sample state for the stale-work sweep: one FeedCreation stuck in
UPDATING beyond the window, one UPDATING inside the window, one PENDING
inside its (longer) window. -/
def sampleSweepDb : DBState :=
  { feedCreations :=
      [{ id := 1, user_id := 1, url := "http://a", status := FeedStatus.updating,
         message := "", dt_updated := 0, is_from_bookmark := false },
       { id := 2, user_id := 1, url := "http://b", status := FeedStatus.updating,
         message := "", dt_updated := 600, is_from_bookmark := false },
       { id := 3, user_id := 2, url := "http://c", status := FeedStatus.pending,
         message := "", dt_updated := 0, is_from_bookmark := false }],
    feeds := [], userFeeds := [], feedUrlMaps := [], storys := [],
    nextFeedId := 1, nextStoryId := 1 }

theorem replaceFirst_cons {α : Type} (x : α) (xs : List α) (p : α → Bool) (f : α → α) :
    replaceFirst (x :: xs) p f = if p x then f x :: xs else x :: replaceFirst xs p f := rfl

theorem find?_replaceFirst_of_excl {α : Type} (l : List α) (p q : α → Bool) (f : α → α)
    (h1 : ∀ x, p x = true → q x = false) (h2 : ∀ x, p x = true → q (f x) = false) :
    (replaceFirst l p f).find? q = l.find? q := by
  induction l with
  | nil => rfl
  | cons x xs ih =>
    rw [replaceFirst_cons]
    cases hp : p x with
    | true =>
      simp only [if_pos]
      rw [List.find?_cons_of_neg _ (by simp [h2 x hp]),
        List.find?_cons_of_neg _ (by simp [h1 x hp])]
    | false =>
      simp only [Bool.false_eq_true, if_neg, not_false_iff]
      cases hq : q x with
      | true => rw [List.find?_cons_of_pos _ hq, List.find?_cons_of_pos _ hq]
      | false =>
        rw [List.find?_cons_of_neg _ (by simp [hq]),
          List.find?_cons_of_neg _ (by simp [hq]), ih]

theorem find?_replaceFirst_self {α : Type} (l : List α) (p : α → Bool) (f : α → α) (s : α)
    (h : l.find? p = some s) (hf : ∀ x, p x = true → p (f x) = true) :
    (replaceFirst l p f).find? p = some (f s) := by
  induction l with
  | nil => simp at h
  | cons x xs ih =>
    rw [replaceFirst_cons]
    cases hp : p x with
    | true =>
      rw [List.find?_cons_of_pos _ hp] at h
      injection h with h2
      subst h2
      simp only [if_pos]
      rw [List.find?_cons_of_pos _ (hf x hp)]
    | false =>
      rw [List.find?_cons_of_neg _ (by simp [hp])] at h
      simp only [Bool.false_eq_true, if_neg, not_false_iff]
      rw [List.find?_cons_of_neg _ (by simp [hp])]
      exact ih h

theorem find?_replaceFirst_new {α : Type} (l : List α) (p q : α → Bool) (f : α → α) (s : α)
    (hq0 : l.find? q = none) (hp : l.find? p = some s) (hq : q (f s) = true) :
    (replaceFirst l p f).find? q = some (f s) := by
  induction l with
  | nil => simp at hp
  | cons x xs ih =>
    rw [List.find?_eq_none] at hq0
    have hqx : ¬ q x = true := hq0 x (List.mem_cons_self x xs)
    have hq0xs : xs.find? q = none := by
      rw [List.find?_eq_none]
      exact fun y hy => hq0 y (List.mem_cons_of_mem x hy)
    rw [replaceFirst_cons]
    cases hpx : p x with
    | true =>
      rw [List.find?_cons_of_pos _ hpx] at hp
      cases hp
      simp only [if_pos]
      rw [List.find?_cons_of_pos _ hq]
    | false =>
      rw [List.find?_cons_of_neg _ (by simp [hpx])] at hp
      simp only [Bool.false_eq_true, if_neg, not_false_iff]
      rw [List.find?_cons_of_neg _ hqx]
      exact ih hq0xs hp

theorem find?_append_single_none {α : Type} (l : List α) (s : α) (q : α → Bool)
    (h : l.find? q = none) (hq : q s = true) : (l ++ [s]).find? q = some s := by
  rw [List.find?_append, h]
  simp [hq]

theorem find?_append_single_of_neg {α : Type} (l : List α) (s : α) (q : α → Bool)
    (hq : q s = false) : (l ++ [s]).find? q = l.find? q := by
  rw [List.find?_append]
  cases hf : l.find? q with
  | none => simp [hq]
  | some x => rfl

theorem filter_length_le_one_of_nodup_key {α : Type} (l : List α) (key : α → Nat)
    (hnd : (l.map key).Nodup) (p : α → Bool) (c : Nat)
    (hp : ∀ x, p x = true → key x = c) : (l.filter p).length ≤ 1 := by
  induction l with
  | nil => simp
  | cons x xs ih =>
    rw [List.map_cons, List.nodup_cons] at hnd
    cases hpx : p x with
    | true =>
      rw [List.filter_cons_of_pos hpx]
      have hxs : xs.filter p = [] := by
        rw [List.filter_eq_nil_iff]
        intro y hy hpy
        exact hnd.1 (by
          rw [hp x hpx, ← hp y (by simpa using hpy)]
          exact List.mem_map_of_mem key hy)
      simp [hxs]
    | false =>
      rw [List.filter_cons_of_neg (by simp [hpx])]
      exact ih hnd.2

theorem replaceFirst_eq_map_of_subsingleton {α : Type} (l : List α) (p : α → Bool)
    (f : α → α) (h : (l.filter p).length ≤ 1) :
    replaceFirst l p f = l.map (fun x => if p x then f x else x) := by
  induction l with
  | nil => rfl
  | cons x xs ih =>
    rw [replaceFirst_cons, List.map_cons]
    cases hp : p x with
    | true =>
      rw [List.filter_cons_of_pos hp] at h
      have hxs : xs.filter p = [] := by
        cases hfx : xs.filter p with
        | nil => rfl
        | cons y ys => rw [hfx] at h; simp at h
      rw [List.filter_eq_nil_iff] at hxs
      have hmap : xs.map (fun y => if p y then f y else y) = xs := by
        rw [List.map_congr_left (g := id) (fun y hy => by
          simp [Bool.not_eq_true] at hxs
          simp [hxs y hy]), List.map_id]
      simp [hp, hmap]
    | false =>
      rw [List.filter_cons_of_neg (by simp [hp])] at h
      simp [hp, ih h]

theorem eq_of_mem_of_nodup_key {α : Type} (l : List α) (key : α → Nat)
    (hnd : (l.map key).Nodup) {x y : α} (hx : x ∈ l) (hy : y ∈ l)
    (hkey : key x = key y) : x = y :=
  List.inj_on_of_nodup_map hnd hx hy hkey

theorem lookupAL_nil (u : String) : lookupAL [] u = none := rfl

theorem lookupAL_insertAL (m : List (String × String)) (k v u : String) :
    lookupAL (insertAL m k v) u = if u = k then some v else lookupAL m u := by
  induction m with
  | nil =>
    by_cases huk : u = k
    · simp [insertAL, lookupAL, huk]
    · simp [insertAL, lookupAL, huk, Ne.symm huk]
  | cons p rest ih =>
    by_cases hpk : p.fst = k
    · by_cases huk : u = k
      · simp [insertAL, lookupAL, hpk, huk]
      · have h2 : ¬ p.fst = u := fun h => huk (by rw [← h, hpk])
        simp [insertAL, lookupAL, hpk, huk, Ne.symm huk, h2]
    · by_cases hpu : p.fst = u
      · have huk : ¬ u = k := fun h => hpk (by rw [hpu, h])
        simp [insertAL, lookupAL, hpk, hpu, huk]
      · simp [insertAL, lookupAL, hpk, hpu, ih]

theorem buildImageReplaces_loop (story_url : String) (images : List ImageItem)
    (acc : List (String × String)) (u : String) :
    lookupAL (images.foldl (imageClassifyStep story_url) acc) u =
      if ∃ img ∈ images, img.url = u ∧ img.status ∈ IMAGE_REFERER_DENY_STATUS then
        some ("/api/v1/image/" ++ encode_image_url u story_url)
      else lookupAL acc u := by
  induction images generalizing acc with
  | nil => simp
  | cons img rest ih =>
    rw [List.foldl_cons, ih]
    by_cases hrest : ∃ i ∈ rest, i.url = u ∧ i.status ∈ IMAGE_REFERER_DENY_STATUS
    · rw [if_pos hrest, if_pos (by
        obtain ⟨i, hi, hiu, his⟩ := hrest
        exact ⟨i, List.mem_cons_of_mem img hi, hiu, his⟩)]
    · rw [if_neg hrest, imageClassifyStep]
      by_cases hdeny : img.status ∈ IMAGE_REFERER_DENY_STATUS
      · rw [if_pos hdeny, lookupAL_insertAL]
        by_cases huk : u = img.url
        · rw [if_pos huk, if_pos ⟨img, List.mem_cons_self img rest, Eq.symm huk, hdeny⟩, huk]
        · rw [if_neg huk, if_neg (by
            rintro ⟨i, hi, hiu, his⟩
            rcases List.mem_cons.mp hi with h | h
            · exact huk (by rw [← hiu, h])
            · exact hrest ⟨i, h, hiu, his⟩)]
      · rw [if_neg hdeny, if_neg (by
          rintro ⟨i, hi, hiu, his⟩
          rcases List.mem_cons.mp hi with h | h
          · exact hdeny (h ▸ his)
          · exact hrest ⟨i, h, hiu, his⟩)]

/-- C1: in a `story_images` message, an image URL is a key of the
replacement map if and only if some image entry with that URL has a status
in the referer-deny set (400, 401, 403, 404, REFERER_DENY,
REFERER_NOT_ALLOWED), and every image entry whose status is in the set is
mapped to `/api/v1/image/` followed by `encode_image_url(url, story_url)`;
an image whose status is outside the set never causes an entry. -/
theorem image_replaces_iff_referer_deny (story_url : String) (images : List ImageItem)
    (u : String) :
    (lookupAL (buildImageReplaces story_url images) u ≠ none ↔
      ∃ img ∈ images, img.url = u ∧ img.status ∈ IMAGE_REFERER_DENY_STATUS) ∧
    (∀ img ∈ images, img.status ∈ IMAGE_REFERER_DENY_STATUS →
      lookupAL (buildImageReplaces story_url images) img.url =
        some ("/api/v1/image/" ++ encode_image_url img.url story_url)) := by
  constructor
  · rw [buildImageReplaces, buildImageReplaces_loop]
    by_cases h : ∃ img ∈ images, img.url = u ∧ img.status ∈ IMAGE_REFERER_DENY_STATUS
    · simp [h]
    · simp [h, lookupAL_nil]
  · intro img hmem hdeny
    rw [buildImageReplaces, buildImageReplaces_loop,
      if_pos ⟨img, hmem, rfl, hdeny⟩]

/-- Witness for C1 at a concrete input: status 403 rewrites, status 200
does not produce an entry. -/
theorem image_replaces_iff_referer_deny_witness :
    lookupAL (buildImageReplaces "http://s" [⟨"http://x", 403⟩, ⟨"http://y", 200⟩]) "http://x" =
      some ("/api/v1/image/" ++ encode_image_url "http://x" "http://s") :=
  (image_replaces_iff_referer_deny "http://s" [⟨"http://x", 403⟩, ⟨"http://y", 200⟩]
    "http://x").2 ⟨"http://x", 403⟩ (by decide) (by decide)

/-- C9: a `creation_status` message sets the referenced FeedCreation's
status to UPDATING whatever the `status` argument is (two invocations with
different status strings agree), and performs no other state change: the
only mutation is the status of the row with the given id, nothing else in
the state moves and nothing is emitted. -/
theorem update_feed_creation_status_spec (db : DBState) (cid : Nat) (s1 s2 : String)
    (fc : FeedCreation) (hmem : fc ∈ db.feedCreations) (hid : fc.id = cid)
    (hnd : (db.feedCreations.map FeedCreation.id).Nodup) :
    do_update_feed_creation_status db cid s1 = do_update_feed_creation_status db cid s2 ∧
    do_update_feed_creation_status db cid s1 = some
      ({ db with
          feedCreations := db.feedCreations.map (fun x =>
            if x.id == cid then { x with status := FeedStatus.updating } else x) },
        []) := by
  have hsome : (db.feedCreations.find? (fun x => x.id == cid)).isSome :=
    List.find?_isSome.mpr ⟨fc, hmem, by simp [hid]⟩
  obtain ⟨fc0, hfc0⟩ := Option.isSome_iff_exists.mp hsome
  have hrepl : replaceFirst db.feedCreations (fun x => x.id == cid)
      (fun x => { x with status := FeedStatus.updating }) =
      db.feedCreations.map (fun x =>
        if x.id == cid then { x with status := FeedStatus.updating } else x) :=
    replaceFirst_eq_map_of_subsingleton _ _ _
      (filter_length_le_one_of_nodup_key _ FeedCreation.id hnd _ cid
        (fun x hx => by simpa using hx))
  constructor
  · simp only [do_update_feed_creation_status, FeedCreation.get_by_pk, hfc0]
  · simp only [do_update_feed_creation_status, FeedCreation.get_by_pk, hfc0, hrepl]

/-- Witness for C9 at a concrete state: the status argument is ignored and
only the row's status changes. -/
theorem update_feed_creation_status_witness :
    do_update_feed_creation_status sampleDb 1 "ready" =
      do_update_feed_creation_status sampleDb 1 "error" ∧
    do_update_feed_creation_status sampleDb 1 "ready" = some
      ({ sampleDb with
          feedCreations := sampleDb.feedCreations.map (fun x =>
            if x.id == 1 then { x with status := FeedStatus.updating } else x) },
        []) :=
  update_feed_creation_status_spec sampleDb 1 "ready" "error" sampleCreation
    (by decide) (by decide) (by decide)

/-- C3: a `creation_result` message with no feed payload sets the
FeedCreation's status to ERROR, stores the joined messages as its
diagnostic message, appends exactly one FeedUrlMap entry mapping the
requested URL to the NOT_FOUND sentinel, leaves feeds, user feeds and
stories untouched, and emits no downstream message. -/
theorem save_feed_creation_result_failure_spec (db : DBState) (now cid : Nat)
    (messages : List String) (fc : FeedCreation)
    (hmem : fc ∈ db.feedCreations) (hid : fc.id = cid)
    (hnd : (db.feedCreations.map FeedCreation.id).Nodup) :
    do_save_feed_creation_result db now cid messages none = some
      ({ db with
          feedCreations := db.feedCreations.map (fun x =>
            if x.id == cid then
              { x with message := String.intercalate "\n\n" messages,
                       dt_updated := now, status := FeedStatus.error }
            else x),
          feedUrlMaps := db.feedUrlMaps ++
            [{ source := fc.url, target := FeedUrlMap.NOT_FOUND }] },
        []) := by
  have hsome : (db.feedCreations.find? (fun x => x.id == cid)).isSome :=
    List.find?_isSome.mpr ⟨fc, hmem, by simp [hid]⟩
  obtain ⟨fc0, hfc0⟩ := Option.isSome_iff_exists.mp hsome
  have hfc0id : fc0.id = cid := by simpa using List.find?_some hfc0
  have heq : fc0 = fc :=
    eq_of_mem_of_nodup_key _ FeedCreation.id hnd
      (List.mem_of_find?_eq_some hfc0) hmem (by rw [hfc0id, hid])
  subst heq
  have hrepl : replaceFirst db.feedCreations (fun x => x.id == cid)
      (fun x => { x with message := String.intercalate "\n\n" messages,
                         dt_updated := now, status := FeedStatus.error }) =
      db.feedCreations.map (fun x =>
        if x.id == cid then
          { x with message := String.intercalate "\n\n" messages,
                   dt_updated := now, status := FeedStatus.error }
        else x) :=
    replaceFirst_eq_map_of_subsingleton _ _ _
      (filter_length_le_one_of_nodup_key _ FeedCreation.id hnd _ cid
        (fun x hx => by simpa using hx))
  simp only [do_save_feed_creation_result, FeedCreation.get_by_pk, hfc0, hrepl]

/-- Witness for C3 at a concrete state, matching the spec's creation
failure scenario. -/
theorem save_feed_creation_result_failure_witness :
    do_save_feed_creation_result sampleDb 9 1 ["dns error"] none = some
      ({ sampleDb with
          feedCreations := sampleDb.feedCreations.map (fun x =>
            if x.id == 1 then
              { x with message := String.intercalate "\n\n" ["dns error"],
                       dt_updated := 9, status := FeedStatus.error }
            else x),
          feedUrlMaps := sampleDb.feedUrlMaps ++
            [{ source := sampleCreation.url, target := FeedUrlMap.NOT_FOUND }] },
        []) :=
  save_feed_creation_result_failure_spec sampleDb 9 1 ["dns error"] sampleCreation
    (by decide) (by decide) (by decide)

theorem saveCreationTail_spec (db : DBState) (fc0 : FeedCreation) (feed : Feed)
    (payload : FeedSchema) :
    (saveCreationTail db fc0 feed payload).snd = [Msg.update_feed feed.id payload] ∧
    (saveCreationTail db fc0 feed payload).fst.feedCreations = db.feedCreations ∧
    (saveCreationTail db fc0 feed payload).fst.feeds = db.feeds ∧
    (saveCreationTail db fc0 feed payload).fst.storys = db.storys ∧
    (saveCreationTail db fc0 feed payload).fst.feedUrlMaps = db.feedUrlMaps ++
      ([{ source := fc0.url, target := feed.url }] ++
        (if feed.url ≠ fc0.url then [{ source := feed.url, target := feed.url }] else [])) := by
  cases huf : UserFeed.first_by_pair db.userFeeds fc0.user_id feed.id with
  | none => simp [saveCreationTail, huf]
  | some uf => simp [saveCreationTail, huf]

theorem saveCreationTail_userFeeds (db : DBState) (fc0 : FeedCreation) (feed : Feed)
    (payload : FeedSchema) :
    (saveCreationTail db fc0 feed payload).fst.userFeeds = db.userFeeds ∨
    ((saveCreationTail db fc0 feed payload).fst.userFeeds = db.userFeeds ++
        [{ user_id := fc0.user_id, feed_id := feed.id,
           is_from_bookmark := fc0.is_from_bookmark }] ∧
      ∀ uf0 ∈ db.userFeeds, ¬(uf0.user_id = fc0.user_id ∧ uf0.feed_id = feed.id)) := by
  cases huf : UserFeed.first_by_pair db.userFeeds fc0.user_id feed.id with
  | some uf =>
    left
    simp [saveCreationTail, huf]
  | none =>
    right
    constructor
    · simp [saveCreationTail, huf]
    · intro uf0 hm hpair
      rw [UserFeed.first_by_pair, List.find?_eq_none] at huf
      exact huf uf0 hm (by simp [hpair.1, hpair.2])

/-- C2: a `creation_result` message with a feed payload sets the
FeedCreation's status to READY, resolves or creates a Feed by the payload
URL, appends a FeedUrlMap entry from the requested URL to the canonical
Feed URL plus — exactly when the canonical URL differs from the requested
one — a self-entry for the canonical URL, and emits one `feed_update`
message carrying the feed id and the full payload. -/
theorem save_feed_creation_result_success_spec (db : DBState) (now cid : Nat)
    (messages : List String) (payload : FeedSchema) (fc : FeedCreation)
    (hmem : fc ∈ db.feedCreations) (hid : fc.id = cid)
    (hnd : (db.feedCreations.map FeedCreation.id).Nodup) :
    ∃ db2 feed,
      do_save_feed_creation_result db now cid messages (some payload) =
        some (db2, [Msg.update_feed feed.id payload]) ∧
      feed.url = payload.url ∧
      db2.feedCreations = db.feedCreations.map (fun x =>
        if x.id == cid then
          { x with message := String.intercalate "\n\n" messages,
                   dt_updated := now, status := FeedStatus.ready }
        else x) ∧
      ((Feed.get_first_by_url db.feeds payload.url = some feed ∧ db2.feeds = db.feeds) ∨
        (Feed.get_first_by_url db.feeds payload.url = none ∧
          db2.feeds = db.feeds ++ [feed])) ∧
      db2.feedUrlMaps = db.feedUrlMaps ++
        ([{ source := fc.url, target := feed.url }] ++
          (if feed.url ≠ fc.url then [{ source := feed.url, target := feed.url }]
           else [])) := by
  have hsome : (db.feedCreations.find? (fun x => x.id == cid)).isSome :=
    List.find?_isSome.mpr ⟨fc, hmem, by simp [hid]⟩
  obtain ⟨fc0, hfc0⟩ := Option.isSome_iff_exists.mp hsome
  have hfc0id : fc0.id = cid := by simpa using List.find?_some hfc0
  have heq : fc0 = fc :=
    eq_of_mem_of_nodup_key _ FeedCreation.id hnd
      (List.mem_of_find?_eq_some hfc0) hmem (by rw [hfc0id, hid])
  subst heq
  have hrepl : replaceFirst db.feedCreations (fun x => x.id == cid)
      (fun x => { x with message := String.intercalate "\n\n" messages,
                         dt_updated := now, status := FeedStatus.ready }) =
      db.feedCreations.map (fun x =>
        if x.id == cid then
          { x with message := String.intercalate "\n\n" messages,
                   dt_updated := now, status := FeedStatus.ready }
        else x) :=
    replaceFirst_eq_map_of_subsingleton _ _ _
      (filter_length_le_one_of_nodup_key _ FeedCreation.id hnd _ cid
        (fun x hx => by simpa using hx))
  cases hfeed : Feed.get_first_by_url db.feeds payload.url with
  | some feed0 =>
    have hfind : db.feeds.find? (fun f => f.url == payload.url) = some feed0 := hfeed
    have hurl : feed0.url = payload.url := by
      simpa using List.find?_some hfind
    obtain ⟨h1, h2, h3, _h4, h5⟩ := saveCreationTail_spec
      { db with feedCreations := (replaceFirst db.feedCreations (fun x => x.id == cid)
          (fun x => { x with message := String.intercalate "\n\n" messages,
                             dt_updated := now, status := FeedStatus.ready })) }
      fc0 feed0 payload
    refine ⟨(saveCreationTail
      { db with feedCreations := (replaceFirst db.feedCreations (fun x => x.id == cid)
          (fun x => { x with message := String.intercalate "\n\n" messages,
                             dt_updated := now, status := FeedStatus.ready })) }
      fc0 feed0 payload).fst, feed0, ?_, hurl, ?_, Or.inl ⟨rfl, ?_⟩, ?_⟩
    · simp only [do_save_feed_creation_result, FeedCreation.get_by_pk, hfc0, hfeed]
      rw [← h1]
    · rw [h2]
      exact hrepl
    · rw [h3]
    · rw [h5]
  | none =>
    obtain ⟨h1, h2, h3, _h4, h5⟩ := saveCreationTail_spec
      { db with
          feedCreations := (replaceFirst db.feedCreations (fun x => x.id == cid)
            (fun x => { x with message := String.intercalate "\n\n" messages,
                               dt_updated := now, status := FeedStatus.ready })),
          feeds := db.feeds ++ [Feed.fresh db.nextFeedId payload.url now],
          nextFeedId := db.nextFeedId + 1 }
      fc0 (Feed.fresh db.nextFeedId payload.url now) payload
    refine ⟨(saveCreationTail
      { db with
          feedCreations := (replaceFirst db.feedCreations (fun x => x.id == cid)
            (fun x => { x with message := String.intercalate "\n\n" messages,
                               dt_updated := now, status := FeedStatus.ready })),
          feeds := db.feeds ++ [Feed.fresh db.nextFeedId payload.url now],
          nextFeedId := db.nextFeedId + 1 }
      fc0 (Feed.fresh db.nextFeedId payload.url now) payload).fst,
      Feed.fresh db.nextFeedId payload.url now, ?_, rfl, ?_, Or.inr ⟨rfl, ?_⟩, ?_⟩
    · simp only [do_save_feed_creation_result, FeedCreation.get_by_pk, hfc0, hfeed]
      rw [← h1]
    · rw [h2]
      exact hrepl
    · rw [h3]
    · rw [h5]

/-- Witness for C2 at a concrete state: no feed exists yet, so the
canonical Feed is created and both URL-map entries appear. -/
theorem save_feed_creation_result_success_witness :
    ∃ db2 feed,
      do_save_feed_creation_result sampleDb 9 1 ["ok"] (some samplePayload) =
        some (db2, [Msg.update_feed feed.id samplePayload]) ∧
      feed.url = samplePayload.url ∧
      db2.feedCreations = sampleDb.feedCreations.map (fun x =>
        if x.id == 1 then
          { x with message := String.intercalate "\n\n" ["ok"],
                   dt_updated := 9, status := FeedStatus.ready }
        else x) ∧
      ((Feed.get_first_by_url sampleDb.feeds samplePayload.url = some feed ∧
          db2.feeds = sampleDb.feeds) ∨
        (Feed.get_first_by_url sampleDb.feeds samplePayload.url = none ∧
          db2.feeds = sampleDb.feeds ++ [feed])) ∧
      db2.feedUrlMaps = sampleDb.feedUrlMaps ++
        ([{ source := sampleCreation.url, target := feed.url }] ++
          (if feed.url ≠ sampleCreation.url then
            [{ source := feed.url, target := feed.url }]
           else [])) :=
  save_feed_creation_result_success_spec sampleDb 9 1 ["ok"] samplePayload
    sampleCreation (by decide) (by decide) (by decide)

/-- C6: downstream emission happens only with a committed transaction: a
`creation_result` with no feed payload emits nothing whether it commits or
rolls back, and a rolled-back `creation_result` or `feed_update`
invocation (result `none`) emits nothing. -/
theorem emit_only_after_commit (db : DBState) (now cid : Nat) (messages : List String)
    (fd : Option FeedSchema) (fid : Nat) (p : FeedSchema) :
    emitted (do_save_feed_creation_result db now cid messages none) = [] ∧
    (do_save_feed_creation_result db now cid messages fd = none →
      emitted (do_save_feed_creation_result db now cid messages fd) = []) ∧
    (do_update_feed db fid p = none → emitted (do_update_feed db fid p) = []) := by
  refine ⟨?_, fun h => by rw [h]; rfl, fun h => by rw [h]; rfl⟩
  cases hfc : db.feedCreations.find? (fun x => x.id == cid) with
  | none => simp [do_save_feed_creation_result, FeedCreation.get_by_pk, hfc, emitted]
  | some fc0 => simp [do_save_feed_creation_result, FeedCreation.get_by_pk, hfc, emitted]

/-- Witness for C6 at a concrete state: the failure path of
`creation_result` emits nothing. -/
theorem emit_only_after_commit_witness :
    emitted (do_save_feed_creation_result sampleDb 9 1 ["dns error"] none) = [] :=
  (emit_only_after_commit sampleDb 9 1 ["dns error"] none 0 samplePayload).1

/-- C7: handling a `creation_result` either leaves the UserFeed table
unchanged or appends exactly one link whose (user, feed) pair was not
present before, so at-most-one-link-per-pair is preserved. -/
theorem user_feed_unique_per_pair (db : DBState) (now cid : Nat)
    (messages : List String) (fd : Option FeedSchema) (db2 : DBState) (out : List Msg)
    (h : do_save_feed_creation_result db now cid messages fd = some (db2, out)) :
    (db2.userFeeds = db.userFeeds ∨
      ∃ uf, db2.userFeeds = db.userFeeds ++ [uf] ∧
        ∀ uf0 ∈ db.userFeeds, ¬(uf0.user_id = uf.user_id ∧ uf0.feed_id = uf.feed_id)) ∧
    (List.Pairwise (fun a b => ¬(a.user_id = b.user_id ∧ a.feed_id = b.feed_id))
        db.userFeeds →
      List.Pairwise (fun a b => ¬(a.user_id = b.user_id ∧ a.feed_id = b.feed_id))
        db2.userFeeds) := by
  have hmain : db2.userFeeds = db.userFeeds ∨
      ∃ uf, db2.userFeeds = db.userFeeds ++ [uf] ∧
        ∀ uf0 ∈ db.userFeeds, ¬(uf0.user_id = uf.user_id ∧ uf0.feed_id = uf.feed_id) := by
    simp only [do_save_feed_creation_result, FeedCreation.get_by_pk] at h
    cases hfc : db.feedCreations.find? (fun x => x.id == cid) with
    | none => rw [hfc] at h; exact absurd h (by simp)
    | some fc0 =>
      rw [hfc] at h
      cases fd with
      | none =>
        left
        injection h with h
        have hfst : db2 = _ := congrArg Prod.fst h.symm
        rw [hfst]
      | some payload =>
        cases hfeed : Feed.get_first_by_url db.feeds payload.url with
        | some feed0 =>
          simp only [hfeed] at h
          injection h with h
          have hfst : db2 = _ := congrArg Prod.fst h.symm
          rw [hfst]
          rcases saveCreationTail_userFeeds _ fc0 feed0 payload with huf | ⟨huf, hfree⟩
          · left; rw [huf]
          · right
            exact ⟨_, by rw [huf], fun uf0 hm hp => hfree uf0 hm hp⟩
        | none =>
          simp only [hfeed] at h
          injection h with h
          have hfst : db2 = _ := congrArg Prod.fst h.symm
          rw [hfst]
          rcases saveCreationTail_userFeeds _ fc0 (Feed.fresh db.nextFeedId payload.url now)
            payload with huf | ⟨huf, hfree⟩
          · left; rw [huf]
          · right
            exact ⟨_, by rw [huf], fun uf0 hm hp => hfree uf0 hm hp⟩
  refine ⟨hmain, fun hpw => ?_⟩
  rcases hmain with heq | ⟨uf, heq, hfree⟩
  · rw [heq]; exact hpw
  · rw [heq]
    rw [List.pairwise_append]
    refine ⟨hpw, List.pairwise_singleton _ _, ?_⟩
    intro a ha b hb
    rw [List.mem_singleton] at hb
    subst hb
    exact hfree a ha

/-- Witness for C7 at a concrete state: the success path appends one fresh
link and pair-uniqueness is preserved. -/
theorem user_feed_unique_per_pair_witness :
    ((do_save_feed_creation_result sampleDb 9 1 ["ok"] (some samplePayload)).getD
        (sampleDb, [])).fst.userFeeds = sampleDb.userFeeds ∨
    ∃ uf, ((do_save_feed_creation_result sampleDb 9 1 ["ok"] (some samplePayload)).getD
        (sampleDb, [])).fst.userFeeds = sampleDb.userFeeds ++ [uf] ∧
      ∀ uf0 ∈ sampleDb.userFeeds,
        ¬(uf0.user_id = uf.user_id ∧ uf0.feed_id = uf.feed_id) :=
  (user_feed_unique_per_pair sampleDb 9 1 ["ok"] (some samplePayload)
    ((do_save_feed_creation_result sampleDb 9 1 ["ok"] (some samplePayload)).getD
      (sampleDb, [])).fst
    ((do_save_feed_creation_result sampleDb 9 1 ["ok"] (some samplePayload)).getD
      (sampleDb, [])).snd
    (by decide)).1

/-- C5: a `feed_update` message overwrites each Feed attribute with the
payload value exactly when that value is neither the empty string nor
None (blank or absent payload fields keep the stored value), and after
the transaction one fetch-story message carrying the story id and link is
emitted for every story in `modified_storys` and for no other story. -/
theorem update_feed_spec (db : DBState) (fid : Nat) (p : FeedSchema) (f : Feed)
    (hfind : Feed.get_by_pk db.feeds fid = some f) :
    ∃ db2,
      do_update_feed db fid p = some (db2,
        (Story.bulk_save_by_feed f.id p.storys
          { storys := db.storys, nextId := db.nextStoryId }).modified.map
          (fun s => Msg.fetch_story s.link (Nat.repr s.id))) ∧
      Feed.get_by_pk db2.feeds fid = some
        { f with
            url := (if p.url = "" then f.url else p.url),
            title := (if p.title = "" then f.title else p.title),
            content_hash_base64 :=
              (if p.content_hash_base64 = "" then f.content_hash_base64
               else p.content_hash_base64),
            link := (match p.link with
              | none => f.link
              | some x => if x = "" then f.link else some x),
            author := (match p.author with
              | none => f.author
              | some x => if x = "" then f.author else some x),
            icon := (match p.icon with
              | none => f.icon
              | some x => if x = "" then f.icon else some x),
            description := (match p.description with
              | none => f.description
              | some x => if x = "" then f.description else some x),
            version := (match p.version with
              | none => f.version
              | some x => if x = "" then f.version else some x),
            dt_updated := (match p.dt_updated with
              | none => f.dt_updated
              | some t => t),
            encoding := (match p.encoding with
              | none => f.encoding
              | some x => if x = "" then f.encoding else some x),
            etag := (match p.etag with
              | none => f.etag
              | some x => if x = "" then f.etag else some x),
            last_modified := (match p.last_modified with
              | none => f.last_modified
              | some x => if x = "" then f.last_modified else some x) } := by
  have hfind' : db.feeds.find? (fun g => g.id == fid) = some f := hfind
  have hpres : ∀ x : Feed, (x.id == fid) = true → ((updateFeedAttrs x p).id == fid) = true := by
    intro x hx
    simpa [updateFeedAttrs] using hx
  refine ⟨{ db with
      feeds := (replaceFirst db.feeds (fun g => g.id == fid)
        (fun g => updateFeedAttrs g p)),
      storys := (Story.bulk_save_by_feed f.id p.storys
        { storys := db.storys, nextId := db.nextStoryId }).sdb.storys,
      nextStoryId := (Story.bulk_save_by_feed f.id p.storys
        { storys := db.storys, nextId := db.nextStoryId }).sdb.nextId }, ?_, ?_⟩
  · simp only [do_update_feed, Feed.get_by_pk, hfind']
  · show Feed.get_by_pk (replaceFirst db.feeds (fun g => g.id == fid)
      (fun g => updateFeedAttrs g p)) fid = _
    rw [Feed.get_by_pk,
      find?_replaceFirst_self db.feeds (fun g => g.id == fid)
        (fun g => updateFeedAttrs g p) f hfind' hpres]
    rfl

/-- Witness for C5 at a concrete state: the non-blank payload fields (url,
title, hash) overwrite, the absent ones keep the stored values, and the
new story of the batch is emitted as a fetch-story message. -/
theorem update_feed_spec_witness :
    ∃ db2,
      do_update_feed sampleFeedDb 3 samplePayload = some (db2,
        (Story.bulk_save_by_feed sampleFeed.id samplePayload.storys
          { storys := sampleFeedDb.storys, nextId := sampleFeedDb.nextStoryId }).modified.map
          (fun s => Msg.fetch_story s.link (Nat.repr s.id))) ∧
      Feed.get_by_pk db2.feeds 3 = some
        { sampleFeed with
            url := (if samplePayload.url = "" then sampleFeed.url else samplePayload.url),
            title := (if samplePayload.title = "" then sampleFeed.title
              else samplePayload.title),
            content_hash_base64 :=
              (if samplePayload.content_hash_base64 = "" then sampleFeed.content_hash_base64
               else samplePayload.content_hash_base64),
            link := (match samplePayload.link with
              | none => sampleFeed.link
              | some x => if x = "" then sampleFeed.link else some x),
            author := (match samplePayload.author with
              | none => sampleFeed.author
              | some x => if x = "" then sampleFeed.author else some x),
            icon := (match samplePayload.icon with
              | none => sampleFeed.icon
              | some x => if x = "" then sampleFeed.icon else some x),
            description := (match samplePayload.description with
              | none => sampleFeed.description
              | some x => if x = "" then sampleFeed.description else some x),
            version := (match samplePayload.version with
              | none => sampleFeed.version
              | some x => if x = "" then sampleFeed.version else some x),
            dt_updated := (match samplePayload.dt_updated with
              | none => sampleFeed.dt_updated
              | some t => t),
            encoding := (match samplePayload.encoding with
              | none => sampleFeed.encoding
              | some x => if x = "" then sampleFeed.encoding else some x),
            etag := (match samplePayload.etag with
              | none => sampleFeed.etag
              | some x => if x = "" then sampleFeed.etag else some x),
            last_modified := (match samplePayload.last_modified with
              | none => sampleFeed.last_modified
              | some x => if x = "" then sampleFeed.last_modified else some x) } :=
  update_feed_spec sampleFeedDb 3 samplePayload sampleFeed (by decide)

theorem applyIncoming_matchPred (fid : Nat) (uid : String) (v : StorySchema)
    (x : Story) (hx : matchPred fid uid x = true) :
    matchPred fid uid (applyIncoming x v) = true := by
  simpa [matchPred, applyIncoming] using hx

theorem bulkStep_establishes (fid : Nat) (sdb : StoryDb) (v : StorySchema) :
    ∃ s, findStory (bulkStep fid sdb v).sdb.storys fid v.unique_id = some s ∧
      s.content_hash_base64 = v.content_hash_base64 := by
  cases hfind : sdb.storys.find? (matchPred fid v.unique_id) with
  | some s =>
    have hfind2 : findStory sdb.storys fid v.unique_id = some s := hfind
    by_cases hh : s.content_hash_base64 = v.content_hash_base64
    · refine ⟨s, ?_, hh⟩
      simp only [bulkStep, findStory, hfind, if_pos hh]
    · refine ⟨applyIncoming s v, ?_, rfl⟩
      simp only [bulkStep, findStory, hfind, if_neg hh]
      exact find?_replaceFirst_self sdb.storys (matchPred fid v.unique_id)
        (fun t => applyIncoming t v) s hfind
        (fun x hx => applyIncoming_matchPred fid v.unique_id v x hx)
  | none =>
    cases hother : sdb.storys.find? (otherPred fid v.unique_id) with
    | some s =>
      have hsuid : s.unique_id = v.unique_id := by
        have := List.find?_some hother
        simp [otherPred] at this
        exact this.1
      by_cases hh : s.content_hash_base64 = v.content_hash_base64
      · refine ⟨{ s with feed_id := fid }, ?_, hh⟩
        simp only [bulkStep, findStory, findStoryOther, hfind, hother, if_pos hh]
        exact find?_replaceFirst_new sdb.storys (otherPred fid v.unique_id)
          (matchPred fid v.unique_id) (fun t => { t with feed_id := fid }) s
          hfind hother (by simp [matchPred, hsuid])
      · refine ⟨applyIncoming { s with feed_id := fid } v, ?_, rfl⟩
        simp only [bulkStep, findStory, findStoryOther, hfind, hother, if_neg hh]
        exact find?_replaceFirst_new sdb.storys (otherPred fid v.unique_id)
          (matchPred fid v.unique_id)
          (fun t => applyIncoming { t with feed_id := fid } v) s
          hfind hother (by simpa [matchPred, applyIncoming] using hsuid)
    | none =>
      refine ⟨Story.ofSchema sdb.nextId fid v, ?_, rfl⟩
      simp only [bulkStep, findStory, findStoryOther, hfind, hother]
      exact find?_append_single_none sdb.storys (Story.ofSchema sdb.nextId fid v)
        (matchPred fid v.unique_id) hfind (by simp [matchPred, Story.ofSchema])

theorem bulkStep_preserves_find (fid : Nat) (sdb : StoryDb) (v : StorySchema)
    (uid : String) (hne : uid ≠ v.unique_id) :
    findStory (bulkStep fid sdb v).sdb.storys fid uid = findStory sdb.storys fid uid := by
  have hq : ∀ x : Story, x.unique_id = v.unique_id → matchPred fid uid x = false := by
    intro x hx
    simp only [matchPred, hx, Bool.and_eq_false_iff]
    right
    simp
    exact fun h => hne h.symm
  cases hfind : sdb.storys.find? (matchPred fid v.unique_id) with
  | some s =>
    by_cases hh : s.content_hash_base64 = v.content_hash_base64
    · simp only [bulkStep, findStory, hfind, if_pos hh]
    · simp only [bulkStep, findStory, hfind, if_neg hh]
      exact find?_replaceFirst_of_excl sdb.storys (matchPred fid v.unique_id)
        (matchPred fid uid) (fun t => applyIncoming t v)
        (fun x hx => hq x (by simp [matchPred] at hx; exact hx.2))
        (fun x hx => hq (applyIncoming x v)
          (by simp [matchPred, applyIncoming] at hx ⊢; exact hx.2))
  | none =>
    cases hother : sdb.storys.find? (otherPred fid v.unique_id) with
    | some s =>
      have hexcl1 : ∀ x : Story, otherPred fid v.unique_id x = true →
          matchPred fid uid x = false := by
        intro x hx
        simp only [otherPred, Bool.and_eq_true, beq_iff_eq] at hx
        exact hq x hx.1
      by_cases hh : s.content_hash_base64 = v.content_hash_base64
      · simp only [bulkStep, findStory, findStoryOther, hfind, hother, if_pos hh]
        exact find?_replaceFirst_of_excl sdb.storys (otherPred fid v.unique_id)
          (matchPred fid uid) (fun t => { t with feed_id := fid }) hexcl1
          (fun x hx => hq { x with feed_id := fid }
            (by simp only [otherPred, Bool.and_eq_true, beq_iff_eq] at hx; exact hx.1))
      · simp only [bulkStep, findStory, findStoryOther, hfind, hother, if_neg hh]
        exact find?_replaceFirst_of_excl sdb.storys (otherPred fid v.unique_id)
          (matchPred fid uid) (fun t => applyIncoming { t with feed_id := fid } v) hexcl1
          (fun x hx => hq (applyIncoming { x with feed_id := fid } v) (by
            simp only [otherPred, Bool.and_eq_true, beq_iff_eq] at hx
            simpa [applyIncoming] using hx.1))
    | none =>
      simp only [bulkStep, findStory, findStoryOther, hfind, hother]
      exact find?_append_single_of_neg sdb.storys (Story.ofSchema sdb.nextId fid v)
        (matchPred fid uid) (hq (Story.ofSchema sdb.nextId fid v) rfl)

theorem bulk_save_preserves_find (fid : Nat) (vs : List StorySchema) (sdb : StoryDb)
    (uid : String) (hnin : uid ∉ vs.map StorySchema.unique_id) :
    findStory (Story.bulk_save_by_feed fid vs sdb).sdb.storys fid uid =
      findStory sdb.storys fid uid := by
  induction vs generalizing sdb with
  | nil => rfl
  | cons v rest ih =>
    rw [List.map_cons, List.mem_cons, not_or] at hnin
    simp only [Story.bulk_save_by_feed]
    rw [ih (bulkStep fid sdb v).sdb hnin.2]
    exact bulkStep_preserves_find fid sdb v uid hnin.1

theorem bulk_save_establishes (fid : Nat) (vs : List StorySchema) (sdb : StoryDb)
    (hnd : (vs.map StorySchema.unique_id).Nodup) :
    ∀ v ∈ vs, ∃ s,
      findStory (Story.bulk_save_by_feed fid vs sdb).sdb.storys fid v.unique_id = some s ∧
      s.content_hash_base64 = v.content_hash_base64 := by
  induction vs generalizing sdb with
  | nil => intro v hv; exact absurd hv (List.not_mem_nil v)
  | cons v rest ih =>
    rw [List.map_cons, List.nodup_cons] at hnd
    intro w hw
    rcases List.mem_cons.mp hw with hwv | hwr
    · subst hwv
      obtain ⟨s, hs, hh⟩ := bulkStep_establishes fid sdb w
      refine ⟨s, ?_, hh⟩
      simp only [Story.bulk_save_by_feed]
      rw [bulk_save_preserves_find fid rest (bulkStep fid sdb w).sdb w.unique_id hnd.1]
      exact hs
    · simp only [Story.bulk_save_by_feed]
      exact ih (bulkStep fid sdb v).sdb hnd.2 w hwr

theorem bulk_save_replay (fid : Nat) (vs : List StorySchema) (sdb : StoryDb)
    (h : ∀ v ∈ vs, ∃ s, findStory sdb.storys fid v.unique_id = some s ∧
      s.content_hash_base64 = v.content_hash_base64) :
    Story.bulk_save_by_feed fid vs sdb =
      { sdb := sdb, modified := [], num_reallocate := 0 } := by
  induction vs with
  | nil => rfl
  | cons v rest ih =>
    obtain ⟨s, hs, hh⟩ := h v (List.mem_cons_self v rest)
    have hs2 : sdb.storys.find? (matchPred fid v.unique_id) = some s := hs
    have hstep : bulkStep fid sdb v = { sdb := sdb, modified := none, realloc := false } := by
      simp only [bulkStep, findStory, hs2, if_pos hh]
    simp only [Story.bulk_save_by_feed, hstep]
    rw [ih (fun w hw => h w (List.mem_cons_of_mem v hw))]
    rfl

/-- C4: replaying `Story.bulk_save_by_feed` on the same batch (with its
unchanged content hashes, and pairwise-distinct natural keys as required by
the (feed, unique_id) uniqueness invariant) returns an empty
`modified_storys` set, a zero reallocation count, and mutates no persisted
story row: the story state is returned unchanged. -/
theorem bulk_save_replay_idempotent (fid : Nat) (vs : List StorySchema) (sdb : StoryDb)
    (hnd : (vs.map StorySchema.unique_id).Nodup) :
    Story.bulk_save_by_feed fid vs (Story.bulk_save_by_feed fid vs sdb).sdb =
      { sdb := (Story.bulk_save_by_feed fid vs sdb).sdb, modified := [],
        num_reallocate := 0 } :=
  bulk_save_replay fid vs _ (bulk_save_establishes fid vs sdb hnd)

/-- Witness for C4 at a concrete input: replaying a one-story batch leaves
the state unchanged and reports nothing modified. -/
theorem bulk_save_replay_idempotent_witness :
    Story.bulk_save_by_feed 3 [sampleStorySchema]
        (Story.bulk_save_by_feed 3 [sampleStorySchema]
          { storys := [], nextId := 0 }).sdb =
      { sdb := (Story.bulk_save_by_feed 3 [sampleStorySchema]
          { storys := [], nextId := 0 }).sdb,
        modified := [], num_reallocate := 0 } :=
  bulk_save_replay_idempotent 3 [sampleStorySchema] { storys := [], nextId := 0 }
    (by decide)

theorem mem_query_ids_iff (l : List FeedCreation)
    (hnd : (l.map FeedCreation.id).Nodup) (status : FeedStatus) (now w : Nat)
    (fc : FeedCreation) (hm : fc ∈ l) :
    fc.id ∈ FeedCreation.query_ids_by_status status now w l ↔
      (fc.status = status ∧ fc.dt_updated + w < now) := by
  constructor
  · intro h
    rw [FeedCreation.query_ids_by_status] at h
    obtain ⟨fc2, hfc2, hid⟩ := List.mem_map.mp h
    rw [List.mem_filter] at hfc2
    have heq : fc2 = fc :=
      eq_of_mem_of_nodup_key l FeedCreation.id hnd hfc2.1 hm hid
    subst heq
    simpa using hfc2.2
  · intro h
    rw [FeedCreation.query_ids_by_status]
    exact List.mem_map.mpr
      ⟨fc, List.mem_filter.mpr ⟨hm, by simp [h.1, h.2]⟩, rfl⟩

theorem bulk_set_pending_eq_map (l : List FeedCreation)
    (hnd : (l.map FeedCreation.id).Nodup) (status : FeedStatus) (now w : Nat) :
    FeedCreation.bulk_set_pending (FeedCreation.query_ids_by_status status now w l) l =
      l.map (fun fc =>
        if fc.status = status ∧ fc.dt_updated + w < now then
          { fc with status := FeedStatus.pending }
        else fc) := by
  rw [FeedCreation.bulk_set_pending]
  apply List.map_congr_left
  intro fc hm
  by_cases hp : fc.status = status ∧ fc.dt_updated + w < now
  · rw [if_pos ((mem_query_ids_iff l hnd status now w fc hm).mpr hp), if_pos hp]
  · rw [if_neg (fun hin => hp ((mem_query_ids_iff l hnd status now w fc hm).mp hin)),
      if_neg hp]

/-- C8: one run of the stale-work sweep deletes the terminal records older
than the retention window and, among the surviving records, resets to
PENDING exactly those stuck in UPDATING beyond 10 minutes or stuck in
PENDING beyond 30 minutes — every other surviving record is returned
unchanged, nothing outside the FeedCreation table moves, and no message is
sent. -/
theorem clean_feed_creation_spec (db : DBState) (now : Nat)
    (hnd : (db.feedCreations.map FeedCreation.id).Nodup) :
    (do_clean_feed_creation db now).db.feedCreations =
      (db.feedCreations.filter (fun fc =>
        !(fc.status.isTerminal && decide (fc.dt_updated + 2 * 60 * 60 < now)))).map
        (fun fc =>
          if (fc.status = FeedStatus.updating ∧ fc.dt_updated + 10 * 60 < now) ∨
              (fc.status = FeedStatus.pending ∧ fc.dt_updated + 30 * 60 < now) then
            { fc with status := FeedStatus.pending }
          else fc) ∧
    (do_clean_feed_creation db now).msgs = [] ∧
    (do_clean_feed_creation db now).db.feeds = db.feeds ∧
    (do_clean_feed_creation db now).db.userFeeds = db.userFeeds ∧
    (do_clean_feed_creation db now).db.feedUrlMaps = db.feedUrlMaps ∧
    (do_clean_feed_creation db now).db.storys = db.storys := by
  have hnd1 : ((db.feedCreations.filter (fun fc =>
      !(fc.status.isTerminal && decide (fc.dt_updated + 2 * 60 * 60 < now)))).map
      FeedCreation.id).Nodup :=
    hnd.sublist (List.Sublist.map FeedCreation.id (List.filter_sublist _))
  refine ⟨?_, rfl, rfl, rfl, rfl, rfl⟩
  simp only [do_clean_feed_creation, FeedCreation.delete_by_status, retry_feed_creations]
  rw [bulk_set_pending_eq_map _ hnd1 FeedStatus.updating now (10 * 60)]
  have hid1 : ((db.feedCreations.filter (fun fc =>
      !(fc.status.isTerminal && decide (fc.dt_updated + 2 * 60 * 60 < now)))).map
      (fun fc =>
        if fc.status = FeedStatus.updating ∧ fc.dt_updated + 10 * 60 < now then
          { fc with status := FeedStatus.pending }
        else fc)).map FeedCreation.id =
      (db.feedCreations.filter (fun fc =>
        !(fc.status.isTerminal && decide (fc.dt_updated + 2 * 60 * 60 < now)))).map
        FeedCreation.id := by
    rw [List.map_map]
    apply List.map_congr_left
    intro fc _
    by_cases hp : fc.status = FeedStatus.updating ∧ fc.dt_updated + 10 * 60 < now
    · simp [hp]
    · simp [hp]
  rw [bulk_set_pending_eq_map _ (by rw [hid1]; exact hnd1) FeedStatus.pending now (30 * 60)]
  rw [List.map_map]
  apply List.map_congr_left
  intro fc _
  by_cases h1 : fc.status = FeedStatus.updating ∧ fc.dt_updated + 10 * 60 < now
  · have hcomb : (fc.status = FeedStatus.updating ∧ fc.dt_updated + 10 * 60 < now) ∨
        (fc.status = FeedStatus.pending ∧ fc.dt_updated + 30 * 60 < now) := Or.inl h1
    by_cases h2 : fc.dt_updated + 30 * 60 < now
    · simp [Function.comp, h1, hcomb, h2]
    · simp [Function.comp, h1, hcomb, h2]
  · by_cases h2 : fc.status = FeedStatus.pending ∧ fc.dt_updated + 30 * 60 < now
    · have hcomb : (fc.status = FeedStatus.updating ∧ fc.dt_updated + 10 * 60 < now) ∨
          (fc.status = FeedStatus.pending ∧ fc.dt_updated + 30 * 60 < now) := Or.inr h2
      simp [Function.comp, h1, hcomb, h2]
    · have hcomb : ¬((fc.status = FeedStatus.updating ∧ fc.dt_updated + 10 * 60 < now) ∨
          (fc.status = FeedStatus.pending ∧ fc.dt_updated + 30 * 60 < now)) := by
        rintro (h | h)
        · exact h1 h
        · exact h2 h
      simp [Function.comp, h1, hcomb, h2]

/-- Witness for C8 at a concrete state, matching the spec's stuck-retry
scenario: the 15-minute-old UPDATING record is reset to PENDING, the
5-minute-old one is untouched. -/
theorem clean_feed_creation_witness :
    (do_clean_feed_creation sampleSweepDb 900).db.feedCreations =
      (sampleSweepDb.feedCreations.filter (fun fc =>
        !(fc.status.isTerminal && decide (fc.dt_updated + 2 * 60 * 60 < 900)))).map
        (fun fc =>
          if (fc.status = FeedStatus.updating ∧ fc.dt_updated + 10 * 60 < 900) ∨
              (fc.status = FeedStatus.pending ∧ fc.dt_updated + 30 * 60 < 900) then
            { fc with status := FeedStatus.pending }
          else fc) ∧
    (do_clean_feed_creation sampleSweepDb 900).msgs = [] ∧
    (do_clean_feed_creation sampleSweepDb 900).db.feeds = sampleSweepDb.feeds ∧
    (do_clean_feed_creation sampleSweepDb 900).db.userFeeds = sampleSweepDb.userFeeds ∧
    (do_clean_feed_creation sampleSweepDb 900).db.feedUrlMaps =
      sampleSweepDb.feedUrlMaps ∧
    (do_clean_feed_creation sampleSweepDb 900).db.storys = sampleSweepDb.storys :=
  clean_feed_creation_spec sampleSweepDb 900 (by decide)

theorem process_empty_replaces (refs : List ImageRef) (content : List ContentPart) :
    StoryImageProcessor.process content refs [] = content := by
  induction refs generalizing content with
  | nil => rfl
  | cons r rest ih =>
    show StoryImageProcessor.process content (r :: rest) [] = content
    rw [StoryImageProcessor.process, List.foldl_cons]
    exact ih content

theorem buildImageReplaces_nil_of_no_deny (story_url : String) (images : List ImageItem)
    (h : ∀ img ∈ images, img.status ∉ IMAGE_REFERER_DENY_STATUS) :
    buildImageReplaces story_url images = [] := by
  rw [buildImageReplaces]
  induction images with
  | nil => rfl
  | cons img rest ih =>
    rw [List.foldl_cons]
    rw [show imageClassifyStep story_url [] img = [] from by
      rw [imageClassifyStep, if_neg (h img (List.mem_cons_self img rest))]]
    exact ih (fun i hi => h i (List.mem_cons_of_mem img hi))

/-- C10: a `story_images` message whose images are all outside the
referer-deny set still re-parses the story content, runs it through the
processor with an empty replacement map, and saves the story row: the
handler commits with a write log containing the story id, the stored
content is the processed result, and that result equals the original
content byte for byte. -/
theorem update_story_images_always_saves (db : DBState) (sid : Nat) (story_url : String)
    (images : List ImageItem) (story : Story)
    (hfind : Story.get_by_pk db.storys sid = some story)
    (hnone : ∀ img ∈ images, img.status ∉ IMAGE_REFERER_DENY_STATUS) :
    buildImageReplaces story_url images = [] ∧
    ∃ db2,
      do_update_story_images db sid story_url images = some (db2, [sid]) ∧
      Story.get_by_pk db2.storys sid = some
        { story with content := (StoryImageProcessor.process story.content
            (StoryImageProcessor.parse story.content) []) } ∧
      StoryImageProcessor.process story.content
        (StoryImageProcessor.parse story.content) [] = story.content := by
  have hrepl := buildImageReplaces_nil_of_no_deny story_url images hnone
  have hfind' : db.storys.find? (fun s => s.id == sid) = some story := hfind
  have hpres : ∀ x : Story, (x.id == sid) = true →
      (({ x with content := (StoryImageProcessor.process x.content
          (StoryImageProcessor.parse x.content) []) } : Story).id == sid) = true := by
    intro x hx
    simpa using hx
  refine ⟨hrepl,
    { db with storys := (replaceFirst db.storys (fun s => s.id == sid)
        (fun s => { s with content := (StoryImageProcessor.process s.content
          (StoryImageProcessor.parse s.content) []) })) }, ?_, ?_,
    process_empty_replaces _ _⟩
  · simp only [do_update_story_images, Story.get_by_pk, hfind', hrepl]
  · show Story.get_by_pk (replaceFirst db.storys (fun s => s.id == sid)
      (fun s => { s with content := (StoryImageProcessor.process s.content
        (StoryImageProcessor.parse s.content) []) })) sid = _
    rw [Story.get_by_pk,
      find?_replaceFirst_self db.storys (fun s => s.id == sid)
        (fun s => { s with content := (StoryImageProcessor.process s.content
          (StoryImageProcessor.parse s.content) []) }) story hfind' hpres]

/-- Witness for C10 at a concrete state: a single status-200 image yields
an empty replacement map, yet the story row is saved with its reprocessed
(unchanged) content. -/
theorem update_story_images_always_saves_witness :
    buildImageReplaces "http://s" [⟨"http://y", 200⟩] = [] ∧
    ∃ db2,
      do_update_story_images sampleStoryDb 5 "http://s" [⟨"http://y", 200⟩] =
        some (db2, [5]) ∧
      Story.get_by_pk db2.storys 5 = some
        { sampleStoryRow with content := (StoryImageProcessor.process
            sampleStoryRow.content (StoryImageProcessor.parse sampleStoryRow.content) []) } ∧
      StoryImageProcessor.process sampleStoryRow.content
        (StoryImageProcessor.parse sampleStoryRow.content) [] = sampleStoryRow.content :=
  update_story_images_always_saves sampleStoryDb 5 "http://s" [⟨"http://y", 200⟩]
    sampleStoryRow (by decide) (by decide)

end Rssant

